import Mathlib

/-!
Verification of the Movie_Recommendation repository (CBFRS.py, CFRS.py,
CFRS_n.py, HybridRS.py) against its natural-language specification.

The Python code is shallowly embedded: pandas/numpy pipelines become list
and function manipulations, sparse matrices become explicit entry
functions, floating point numbers become exact rationals or real numbers
(cosine similarity involves square roots, hence the real-valued parts).
Sorting primitives (`numpy.argsort`, `pandas.sort_values`, Python
`sorted`) are modelled by stable insertion sort; where numpy leaves the
order of ties unspecified we fix the deterministic tie-break mandated by
the specification (ascending index).
-/

set_option maxHeartbeats 1000000

namespace MovieRec

/-! ### Generic list helpers (pandas `unique`, Python `sorted`, `argsort`) -/

/-- pandas `Series.unique`: the distinct elements of a list in order of first
appearance.  Mathlib's `dedup` keeps last occurrences, so we reverse twice. -/
def uniqueFirst {α : Type} [DecidableEq α] (l : List α) : List α :=
  (l.reverse.dedup).reverse

/-- Decidability of the ascending comparison of a linear order, packaged so
that every use of insertion sort refers to one and the same instance. -/
def ascDec {α : Type} [LinearOrder α] :
    DecidableRel (fun a b : α => a ≤ b) :=
  fun a b => inferInstanceAs (Decidable (a ≤ b))

/-- Python `sorted`: ascending stable sort with respect to a linear order. -/
def sortAsc {α : Type} [LinearOrder α] (l : List α) : List α :=
  @List.insertionSort α (fun a b => a ≤ b) ascDec l

/-- The comparison used to model `numpy.argsort` on a key vector: ascending by
key value, ties broken by ascending index (the deterministic tie-break the
spec mandates for reproducibility). -/
def keyRel {β : Type} [LinearOrder β] (key : ℕ → β) (i j : ℕ) : Prop :=
  key i < key j ∨ (key i = key j ∧ i ≤ j)

/-- Decidability of `keyRel`, fixed once for all uses. -/
def keyRelDec {β : Type} [LinearOrder β] (key : ℕ → β) :
    DecidableRel (keyRel key) :=
  fun i j => inferInstanceAs (Decidable (key i < key j ∨ (key i = key j ∧ i ≤ j)))

/-- `numpy.argsort` over the indices `0, …, n-1` of a key vector (ascending,
deterministic tie-break by index). -/
noncomputable def argsortAsc {β : Type} [LinearOrder β] (key : ℕ → β) (n : ℕ) :
    List ℕ :=
  @List.insertionSort ℕ (keyRel key) (keyRelDec key) (List.range n)

/-- Decidability of the descending comparison along a key, fixed once. -/
def descDec {α β : Type} [LinearOrder β] (key : α → β) :
    DecidableRel (fun a b : α => key b ≤ key a) :=
  fun a b => inferInstanceAs (Decidable (key b ≤ key a))

/-- Stable descending sort by a key (`pandas.sort_values(ascending=False)`,
Python `sorted(key=…, reverse=True)`, `list.sort(reverse=True)`). -/
def sortByKeyDesc {α β : Type} [LinearOrder β] (key : α → β) (l : List α) :
    List α :=
  @List.insertionSort α (fun a b => key b ≤ key a) (descDec key) l

/-! ### Cosine similarity and cosine distance

`sklearn.metrics.pairwise.cosine_similarity` L2-normalises each row (rows of
norm zero are left as zero rows) and takes dot products; `metric='cosine'`
in `sklearn.neighbors.NearestNeighbors` uses `1 - cosine_similarity` as the
distance.  Vectors are modelled as functions `ℕ → ℝ` together with an
explicit dimension. -/

/-- Dot product of two vectors of dimension `d`. -/
noncomputable def dotR (d : ℕ) (u v : ℕ → ℝ) : ℝ :=
  ∑ i ∈ Finset.range d, u i * v i

/-- Cosine similarity with sklearn's zero-row convention: if either row has
zero norm the similarity is `0`. -/
noncomputable def cosSim (d : ℕ) (u v : ℕ → ℝ) : ℝ :=
  if dotR d u u = 0 ∨ dotR d v v = 0 then 0
  else dotR d u v / (Real.sqrt (dotR d u u) * Real.sqrt (dotR d v v))

/-- Cosine distance as used by `NearestNeighbors(metric='cosine')`. -/
noncomputable def cosDist (d : ℕ) (u v : ℕ → ℝ) : ℝ :=
  1 - cosSim d u v

namespace CBFRS

/-! ### CBFRS.py — `MultilingualMovieRecommender`

The content engine's state after `prepare_features`: per text feature a
TF-IDF row matrix, per numeric feature a scaled column, plus the raw
`vote_average` / `vote_count` columns of the movie table used by the
threshold filter in `get_movie_recommendations`.  The TF-IDF fitting and
min-max scaling themselves involve the external text corpus; the claims
quantify over every state these builders can produce, so the state holds
arbitrary real matrices. -/

/-- The seven text features of `self.text_weights` (dict insertion order). -/
inductive TextFeature : Type
  | genres | keywords | overview | director | topActors
  | productionCompanies | productionCountries
deriving DecidableEq

/-- The four numeric features of `self.numeric_weights`. -/
inductive NumericFeature : Type
  | voteAverage | popularity | runtime | voteCount
deriving DecidableEq

/-- Iteration order of `self.text_weights.items()`. -/
def textFeatures : List TextFeature :=
  [.genres, .keywords, .overview, .director, .topActors,
   .productionCompanies, .productionCountries]

/-- Iteration order of `self.numeric_weights.items()`. -/
def numericFeatures : List NumericFeature :=
  [.voteAverage, .popularity, .runtime, .voteCount]

/-- The literal weights of `self.text_weights`. -/
noncomputable def textWeight : TextFeature → ℝ
  | .genres => 0.20
  | .keywords => 0.15
  | .overview => 0.15
  | .director => 0.10
  | .topActors => 0.10
  | .productionCompanies => 0.05
  | .productionCountries => 0.05

/-- The literal weights of `self.numeric_weights`. -/
noncomputable def numericWeight : NumericFeature → ℝ
  | .voteAverage => 0.08
  | .popularity => 0.05
  | .runtime => 0.04
  | .voteCount => 0.03

/-- State of a fitted `MultilingualMovieRecommender`: `num` movie rows,
`feature_vectors` (a sparse TF-IDF matrix per text feature, a scaled column
per numeric feature) and the raw numeric columns of `self.df` consulted by
the threshold filter. -/
structure State : Type where
  num : ℕ
  textDim : TextFeature → ℕ
  textVec : TextFeature → ℕ → ℕ → ℝ
  numVec : NumericFeature → ℕ → ℝ
  voteAverage : ℕ → ℝ
  voteCount : ℕ → ℝ

/-- `calculate_weighted_similarity`: the similarity of every row `r` to the
query row `movie_idx`, accumulated feature by feature — cosine similarity
for text features, `1 - |scaled difference|` for numeric features, each
multiplied by its weight. -/
noncomputable def calculate_weighted_similarity (s : State) (movieIdx r : ℕ) : ℝ :=
  (textFeatures.map (fun f =>
      cosSim (s.textDim f) (s.textVec f movieIdx) (s.textVec f r) * textWeight f)).sum
  + (numericFeatures.map (fun g =>
      (1 - |s.numVec g r - s.numVec g movieIdx|) * numericWeight g)).sum

/-- The boolean mask of `get_movie_recommendations`: a row passes when it
meets the optional `min_rating` and `min_votes` thresholds (`numpy` treats
the mask as 1/0 when multiplying). -/
noncomputable def maskVal (s : State) (minRating minVotes : Option ℝ) (r : ℕ) : ℝ :=
  ((match minRating with
    | none => 1
    | some t => if t ≤ s.voteAverage r then (1 : ℝ) else 0) :)
  * ((match minVotes with
    | none => 1
    | some t => if t ≤ s.voteCount r then (1 : ℝ) else 0) :)

/-- Lines 275–299 of CBFRS.py (the core of `get_movie_recommendations`
after the external TMDB search resolved the query to `movieIdx`): compute
the weighted similarity vector, zero out rows failing the thresholds, take
positions `1 … n` of the descending argsort, and return those rows with
their filtered scores sorted descending.  Entries are `(row index, score)`
pairs; the metadata columns copied from `self.df` are keyed by the same row
index. -/
noncomputable def get_movie_recommendations (s : State) (movieIdx : ℕ)
    (n : ℕ) (minRating minVotes : Option ℝ) : List (ℕ × ℝ) :=
  let filtered : ℕ → ℝ := fun r =>
    calculate_weighted_similarity s movieIdx r * maskVal s minRating minVotes r
  let order : List ℕ := (argsortAsc filtered s.num).reverse
  let similarIndices : List ℕ := (order.drop 1).take n
  sortByKeyDesc (fun p : ℕ × ℝ => p.2)
    (similarIndices.map (fun r => (r, filtered r)))

/-- One-hot rows (the TF-IDF matrix a `TfidfVectorizer` produces when every
movie's text for the feature is a single word not shared with any other
movie). -/
noncomputable def eVec (i j : ℕ) : ℝ := if i = j then 1 else 0

/-- A concrete three-movie content state: every text feature has pairwise
distinct one-word texts (one-hot TF-IDF rows), every scaled numeric column
is constant, `vote_average` is `[5, 8, 8]` and `vote_count` is
`[10, 50, 10]`. -/
noncomputable def CB3 : State where
  num := 3
  textDim := fun _ => 3
  textVec := fun _ => eVec
  numVec := fun _ _ => 0
  voteAverage := fun i => if i = 0 then 5 else 8
  voteCount := fun i => if i = 1 then 50 else 10

/-- The filtered score vector of the C2 counterexample query: query row `0`,
`min_rating = 7`, no `min_votes`. -/
noncomputable def F2 : ℕ → ℝ := fun r =>
  calculate_weighted_similarity CB3 0 r * maskVal CB3 (some 7) none r

/-- The filtered score vector of the C8 counterexample query: query row `0`,
no `min_rating`, `min_votes = 20` (only row `1`, with 50 votes, passes). -/
noncomputable def F8 : ℕ → ℝ := fun r =>
  calculate_weighted_similarity CB3 0 r * maskVal CB3 none (some 20) r

end CBFRS

/-! ### Shared collaborative-filtering neighbour index

`NearestNeighbors(metric='cosine', algorithm='brute').kneighbors(q)`:
exhaustive scan of the fitted matrix rows, ordered by ascending cosine
distance to the query vector (ties by ascending row index, the
deterministic order the spec mandates), truncated to the fitted `m`
neighbours.  Returned as (row index, distance) pairs; `distances` and
`indices` in the Python code are the two projections of this list. -/

noncomputable def kneighbors (numRows d : ℕ) (row : ℕ → ℕ → ℝ)
    (q : ℕ → ℝ) (m : ℕ) : List (ℕ × ℝ) :=
  ((argsortAsc (fun i => cosDist d (row i) q) numRows).take m).map
    (fun i => (i, cosDist d (row i) q))

namespace CFRS

/-! ### CFRS.py — `KNNMovieRecommender`

Ratings rows are `(user_id, movie_id, rating, timestamp)`; `movie_id` is
cast to `str` by `load_ratings`, so movie ids are strings here and
`sorted(...)` is the lexicographic string order.  All derived state
(`movie_stats`, mappings, matrix) is expressed as functions of the ratings
list and the `min_ratings` threshold. -/

/-- One row of the ratings table after `load_ratings`. -/
structure Rating : Type where
  user : ℕ
  movie : String
  rating : ℚ
  ts : ℕ
deriving DecidableEq

/-- `self.all_movie_ids`: every movie id seen in the ratings (a set; kept
as a first-appearance list). -/
def all_movie_ids (rs : List Rating) : List String :=
  uniqueFirst (rs.map (fun x => x.movie))

/-- `movie_stats['count']`: number of rating rows for a movie. -/
def movieCount (rs : List Rating) (m : String) : ℕ :=
  (rs.filter (fun x => x.movie = m)).length

/-- `movie_stats['mean_rating']`. -/
def movieMean (rs : List Rating) (m : String) : ℚ :=
  ((rs.filter (fun x => x.movie = m)).map (fun x => x.rating)).sum
    / (movieCount rs m : ℚ)

/-- `popular_movies`: ids whose rating count meets `min_ratings`. -/
def popular (rs : List Rating) (minRatings : ℕ) : List String :=
  (all_movie_ids rs).filter (fun m => minRatings ≤ movieCount rs m)

/-- `unique_movies = sorted(popular_movies)`. -/
def unique_movies (rs : List Rating) (minRatings : ℕ) : List String :=
  sortAsc (popular rs minRatings)

/-- `ratings_filtered`: rating rows of eligible movies. -/
def ratings_filtered (rs : List Rating) (minRatings : ℕ) : List Rating :=
  rs.filter (fun x => x.movie ∈ popular rs minRatings)

/-- `unique_users`: users of the filtered ratings, in first-appearance
order (pandas `Series.unique`). -/
def unique_users (rs : List Rating) (minRatings : ℕ) : List ℕ :=
  uniqueFirst ((ratings_filtered rs minRatings).map (fun x => x.user))

/-- Number of rows of `movie_user_matrix`. -/
def numRows (rs : List Rating) (minRatings : ℕ) : ℕ :=
  (unique_movies rs minRatings).length

/-- Number of columns of `movie_user_matrix`. -/
def numCols (rs : List Rating) (minRatings : ℕ) : ℕ :=
  (unique_users rs minRatings).length

/-- `movie_mapping`: position of an eligible movie id in the sorted list. -/
def movieRowIdx (rs : List Rating) (minRatings : ℕ) (m : String) : ℕ :=
  (unique_movies rs minRatings).indexOf m

/-- `user_mapping`. -/
def userColIdx (rs : List Rating) (minRatings : ℕ) (u : ℕ) : ℕ :=
  (unique_users rs minRatings).indexOf u

/-- An entry of the sparse `movie_user_matrix` built by
`csr_matrix((data, (rows, cols)))`: duplicate coordinates are summed. -/
def matrixEntry (rs : List Rating) (minRatings : ℕ) (r c : ℕ) : ℚ :=
  (((ratings_filtered rs minRatings).filter (fun x =>
      movieRowIdx rs minRatings x.movie = r ∧ userColIdx rs minRatings x.user = c)).map
    (fun x => x.rating)).sum

/-- Row `r` of the matrix, as a real vector over the user columns. -/
def matrixRow (rs : List Rating) (minRatings : ℕ) (r : ℕ) : ℕ → ℝ :=
  fun c => ((matrixEntry rs minRatings r c : ℚ) : ℝ)

/-- Python `str.zfill(7)` on an unsigned id string. -/
def zfill7 (s : String) : String :=
  if s.length < 7 then String.mk (List.replicate (7 - s.length) '0') ++ s
  else s

/-- `standardize_movie_id`: exact lookup, then the zero-padded variant. -/
def standardize_movie_id (rs : List Rating) (mid : String) : String :=
  if mid ∈ all_movie_ids rs then mid
  else if zfill7 mid ∈ all_movie_ids rs then zfill7 mid
  else mid

/-- `get_movie_recommendations` (CFRS.py lines 155–200): standardize the
id, return `[]` for unknown or filtered-out movies, otherwise query the
KNN model fitted with `min(n_neighbors + 1, num_rows)` neighbours, drop
position 0 of the result, convert distances to similarities, apply the
optional `min_rating` filter on mean ratings, sort by similarity
descending, and return the first `n_recommendations` entries as
`(movie_id, similarity, mean_rating, rating_count)` tuples. -/
noncomputable def get_movie_recommendations (rs : List Rating)
    (nNeighbors minRatings : ℕ) (movieId : String) (nRec : ℕ)
    (minRating : Option ℚ) : List (String × ℝ × ℚ × ℕ) :=
  let mid := standardize_movie_id rs movieId
  if mid ∉ all_movie_ids rs then []
  else if mid ∉ unique_movies rs minRatings then []
  else
    let R := numRows rs minRatings
    let idx := movieRowIdx rs minRatings mid
    let nb := kneighbors R (numCols rs minRatings) (matrixRow rs minRatings)
      (matrixRow rs minRatings idx) (min (nNeighbors + 1) R)
    let recs := (nb.drop 1).filterMap (fun p =>
      let recId := (unique_movies rs minRatings).getD p.1 ""
      match minRating with
      | none => some (recId, 1 - p.2, movieMean rs recId, movieCount rs recId)
      | some t =>
          if t ≤ movieMean rs recId then
            some (recId, 1 - p.2, movieMean rs recId, movieCount rs recId)
          else none)
    (sortByKeyDesc (fun x => x.2.1) recs).take nRec

/-- Two users, two movies, one rating each: the movie rows `(1,0)` and
`(0,1)` are orthogonal. -/
def rs2 : List Rating := [⟨1, "1", 1, 0⟩, ⟨2, "2", 1, 0⟩]

/-- Three users, three movies, one rating each: pairwise orthogonal rows. -/
def rs3 : List Rating := [⟨1, "1", 1, 0⟩, ⟨2, "2", 1, 0⟩, ⟨3, "3", 1, 0⟩]

/-- One user rated two movies identically: the two matrix rows are equal
(duplicate rows at cosine distance 0 from each other). -/
def rsD : List Rating := [⟨1, "1", 1, 0⟩, ⟨1, "2", 1, 0⟩]

end CFRS

namespace CFRSn

/-! ### CFRS_n.py — `CFMovieRecommender`

Movie ids come from `movies.dat` / `ratings.dat` as pandas integers (no
string cast here), hence `ℕ`.  `preprocess` builds matrix row indices via
`astype('category').cat.codes` — the rank in the ascending sorted order of
the distinct filtered movie ids — while `movie_to_idx` zips
`filtered_ratings['movie_id'].unique()` (first-appearance order) with
`range(len(valid_movies))`. -/

/-- One row of the ratings table. -/
structure Rating : Type where
  user : ℕ
  movie : ℕ
  rating : ℚ
  ts : ℕ
deriving DecidableEq

/-- `movie_ratings.size()` per movie id. -/
def movieCount (rs : List Rating) (m : ℕ) : ℕ :=
  (rs.filter (fun x => x.movie = m)).length

/-- `valid_movies`: the (ascending sorted) groupby index restricted to
movies with at least `min_ratings` ratings. -/
def valid_movies (rs : List Rating) (minRatings : ℕ) : List ℕ :=
  sortAsc ((uniqueFirst (rs.map (fun x => x.movie))).filter
    (fun m => minRatings ≤ movieCount rs m))

/-- `filtered_ratings`. -/
def filtered_ratings (rs : List Rating) (minRatings : ℕ) : List Rating :=
  rs.filter (fun x => x.movie ∈ valid_movies rs minRatings)

/-- The categories of `filtered_ratings['movie_id'].astype('category')`:
distinct values in ascending order. -/
def catMovies (rs : List Rating) (minRatings : ℕ) : List ℕ :=
  sortAsc (uniqueFirst ((filtered_ratings rs minRatings).map (fun x => x.movie)))

/-- The categories of `filtered_ratings['user_id'].astype('category')`. -/
def catUsers (rs : List Rating) (minRatings : ℕ) : List ℕ :=
  sortAsc (uniqueFirst ((filtered_ratings rs minRatings).map (fun x => x.user)))

/-- `cat.codes` of a movie id: its rank among the sorted categories.  This
is the matrix row that actually holds the movie's ratings. -/
def rowOf (rs : List Rating) (minRatings : ℕ) (m : ℕ) : ℕ :=
  (catMovies rs minRatings).indexOf m

/-- `cat.codes` of a user id: the matrix column. -/
def colOf (rs : List Rating) (minRatings : ℕ) (u : ℕ) : ℕ :=
  (catUsers rs minRatings).indexOf u

/-- The keys of `self.movie_to_idx =
dict(zip(filtered_ratings['movie_id'].unique(), range(len(valid_movies))))`:
first-appearance order, zipped with `0, 1, 2, …`. -/
def appOrder (rs : List Rating) (minRatings : ℕ) : List ℕ :=
  uniqueFirst ((filtered_ratings rs minRatings).map (fun x => x.movie))

/-- `self.movie_to_idx[m]`: position of `m` in the first-appearance order. -/
def movie_to_idx (rs : List Rating) (minRatings : ℕ) (m : ℕ) : ℕ :=
  (appOrder rs minRatings).indexOf m

/-- `movie_user_mat.shape[0] = len(valid_movies)`. -/
def numRows (rs : List Rating) (minRatings : ℕ) : ℕ :=
  (valid_movies rs minRatings).length

/-- `movie_user_mat.shape[1] = len(filtered_ratings['user_id'].unique())`. -/
def numCols (rs : List Rating) (minRatings : ℕ) : ℕ :=
  (catUsers rs minRatings).length

/-- Entry `(r, c)` of the sparse matrix
`csr_matrix((filtered_ratings['rating'], (rows, cols)))` where `rows`/`cols`
are the category codes; duplicate coordinates are summed. -/
def matrixEntry (rs : List Rating) (minRatings : ℕ) (r c : ℕ) : ℚ :=
  (((filtered_ratings rs minRatings).filter (fun x =>
      rowOf rs minRatings x.movie = r ∧ colOf rs minRatings x.user = c)).map
    (fun x => x.rating)).sum

/-- Row `r` of the matrix as a real vector. -/
def matrixRow (rs : List Rating) (minRatings : ℕ) (r : ℕ) : ℕ → ℝ :=
  fun c => ((matrixEntry rs minRatings r c : ℚ) : ℝ)

/-- `recommend` (CFRS_n.py lines 54–72): empty result for ids absent from
`movie_to_idx`; otherwise query the neighbour index with
`self.movie_user_mat[movie_to_idx[movie_id]]` and `n_neighbers + 1`
neighbours, drop position 0, map the remaining row indices through
`list(movie_to_idx.keys())`, select the matching `movies_df` rows (in
`movies_df` order, via `isin`) and attach `distances[1:]` positionally as
the `similarity` column. -/
noncomputable def recommend (movies : List (ℕ × String)) (rs : List Rating)
    (minRatings nNeighbers : ℕ) (movieId : ℕ) : List ((ℕ × String) × ℝ) :=
  if movieId ∉ appOrder rs minRatings then []
  else
    let idx := movie_to_idx rs minRatings movieId
    let nb := kneighbors (numRows rs minRatings) (numCols rs minRatings)
      (matrixRow rs minRatings) (matrixRow rs minRatings idx) (nNeighbers + 1)
    let similar := (nb.drop 1).map (fun p => (appOrder rs minRatings).getD p.1 0)
    let sims := (nb.drop 1).map (fun p => p.2)
    (movies.filter (fun mv => mv.1 ∈ similar)).zip sims

/-- The failing input: user 1 rated movie 2, user 2 rated movie 1 (movie 2
appears first in the ratings file). -/
def rsX : List Rating := [⟨1, 2, 1, 0⟩, ⟨2, 1, 1, 0⟩]

/-- The movies table: movie 1 is "A", movie 2 is "B". -/
def moviesX : List (ℕ × String) := [(1, "A"), (2, "B")]

end CFRSn

namespace Hybrid

/-! ### HybridRS.py — `ImprovedHybridRecommender`

The weight state and the score-combination core.  The two input score
dictionaries (`content_based_scores`, `cf_scores`) are modelled as
association lists with Python-dict semantics (later assignment wins); the
Python `set` union is modelled deterministically as first-appearance order
of the concatenated key lists.  The metadata columns copied from
`enriched_df` into the output are external plumbing and are not part of
the combination law. -/

/-- The `content_weight` / `cf_weight` fields of the recommender. -/
structure Weights : Type where
  content_weight : ℚ
  cf_weight : ℚ
deriving DecidableEq

/-- `__init__` sets `content_weight = 0.3`, `cf_weight = 0.7`. -/
def initWeights : Weights := ⟨3 / 10, 7 / 10⟩

/-- `adjust_weights` (HybridRS.py lines 111–117): an in-range weight
updates both fields; an out-of-range weight leaves the state unchanged.
The Bool records which message was printed (`true` = "Weights adjusted",
`false` = "Weight must be between 0 and 1"); no exception is raised. -/
def adjust_weights (w : ℚ) (s : Weights) : Weights × Bool :=
  if 0 ≤ w ∧ w ≤ 1 then (⟨w, 1 - w⟩, true) else (s, false)

/-- The error type the specification's §4.7 prescribes. -/
inductive InvalidWeightError : Type
  | invalidWeight
deriving DecidableEq

/-- Modelled from the spec: `adjust_weights` as §4.7 describes it —
`content_weight ∈ [0,1]`, else fails with `InvalidWeightError`.  Used only
to compare the specified behaviour with the source's. -/
def adjust_weights_spec (w : ℚ) (_s : Weights) :
    Except InvalidWeightError Weights :=
  if 0 ≤ w ∧ w ≤ 1 then Except.ok ⟨w, 1 - w⟩
  else Except.error InvalidWeightError.invalidWeight

/-- Python `dict.get(t, 0)` on a dict built by iterated assignment from an
association list: the value of the last binding of `t`, defaulting to 0. -/
def dictGet (l : List (String × ℚ)) (t : String) : ℚ :=
  ((l.reverse).lookup t).getD 0

/-- `all_movies = set(content_based_scores.keys()) | set(cf_scores.keys())`,
made deterministic as first-appearance order of content keys then cf keys. -/
def unionTitles (content cf : List (String × ℚ)) : List String :=
  uniqueFirst (content.map Prod.fst ++ cf.map Prod.fst)

/-- HybridRS.py lines 73–102 (the score-combination core of
`get_recommendations`): score every title of the union as
`content_weight * content_score + cf_weight * cf_score` (missing side 0),
sort descending by combined score (`sorted(..., reverse=True)`, stable),
keep the top `n`, and emit `(title, content_score, cf_score,
combined_score)` records. -/
def get_recommendations_combine (cw cfw : ℚ) (content cf : List (String × ℚ))
    (n : ℕ) : List (String × ℚ × ℚ × ℚ) :=
  let scored := (unionTitles content cf).map
    (fun t => (t, cw * dictGet content t + cfw * dictGet cf t))
  let top := (sortByKeyDesc (fun p : String × ℚ => p.2) scored).take n
  top.map (fun p => (p.1, dictGet content p.1, dictGet cf p.1, p.2))

/-- The weight invariant maintained by the hybrid recommender. -/
def weightInvariant (s : Weights) : Prop :=
  s.content_weight + s.cf_weight = 1
  ∧ 0 ≤ s.content_weight ∧ s.content_weight ≤ 1

end Hybrid

end MovieRec

namespace MovieRec

theorem mem_uniqueFirst {α : Type} [DecidableEq α] {a : α} {l : List α} :
    a ∈ uniqueFirst l ↔ a ∈ l := by
  simp [uniqueFirst]

theorem nodup_uniqueFirst {α : Type} [DecidableEq α] (l : List α) :
    (uniqueFirst l).Nodup := by
  simpa [uniqueFirst] using List.nodup_reverse.mpr (List.nodup_dedup l.reverse)

theorem sortAsc_perm {α : Type} [LinearOrder α] (l : List α) :
    (sortAsc l).Perm l :=
  @List.perm_insertionSort α _ ascDec l

theorem mem_sortAsc {α : Type} [LinearOrder α] {a : α} {l : List α} :
    a ∈ sortAsc l ↔ a ∈ l :=
  (sortAsc_perm l).mem_iff

theorem nodup_sortAsc {α : Type} [LinearOrder α] {l : List α} (h : l.Nodup) :
    (sortAsc l).Nodup :=
  ((sortAsc_perm l).nodup_iff).mpr h

theorem keyRel_total {β : Type} [LinearOrder β] (key : ℕ → β) :
    ∀ i j, keyRel key i j ∨ keyRel key j i := by
  intro i j
  rcases lt_trichotomy (key i) (key j) with h | h | h
  · exact Or.inl (Or.inl h)
  · rcases le_total i j with hij | hij
    · exact Or.inl (Or.inr ⟨h, hij⟩)
    · exact Or.inr (Or.inr ⟨h.symm, hij⟩)
  · exact Or.inr (Or.inl h)

theorem keyRel_trans {β : Type} [LinearOrder β] (key : ℕ → β) :
    ∀ i j k, keyRel key i j → keyRel key j k → keyRel key i k := by
  intro i j k hij hjk
  rcases hij with h1 | ⟨h1, h1'⟩ <;> rcases hjk with h2 | ⟨h2, h2'⟩
  · exact Or.inl (h1.trans h2)
  · exact Or.inl (h2 ▸ h1)
  · exact Or.inl (h1 ▸ h2)
  · exact Or.inr ⟨h1.trans h2, h1'.trans h2'⟩

theorem argsortAsc_perm {β : Type} [LinearOrder β] (key : ℕ → β) (n : ℕ) :
    (argsortAsc key n).Perm (List.range n) :=
  @List.perm_insertionSort ℕ _ (keyRelDec key) _

theorem argsortAsc_length {β : Type} [LinearOrder β] (key : ℕ → β) (n : ℕ) :
    (argsortAsc key n).length = n := by
  simpa using (argsortAsc_perm key n).length_eq

theorem argsortAsc_nodup {β : Type} [LinearOrder β] (key : ℕ → β) (n : ℕ) :
    (argsortAsc key n).Nodup :=
  ((argsortAsc_perm key n).nodup_iff).mpr (List.nodup_range n)

theorem argsortAsc_sorted {β : Type} [LinearOrder β] (key : ℕ → β) (n : ℕ) :
    (argsortAsc key n).Sorted (keyRel key) := by
  haveI : IsTotal ℕ (keyRel key) := ⟨keyRel_total key⟩
  haveI : IsTrans ℕ (keyRel key) := ⟨keyRel_trans key⟩
  exact @List.sorted_insertionSort ℕ _ (keyRelDec key) _ _ (List.range n)

/-- If `q` is the strict minimiser of the key among `0, …, n-1`, the argsort
puts `q` first and nowhere else. -/
theorem argsortAsc_head_of_strict_min {β : Type} [LinearOrder β]
    (key : ℕ → β) (n : ℕ) (q : ℕ) (hq : q < n)
    (hmin : ∀ j < n, j ≠ q → key q < key j) :
    ∃ t, argsortAsc key n = q :: t ∧ q ∉ t := by
  have hperm := argsortAsc_perm key n
  have hmem : q ∈ argsortAsc key n := hperm.mem_iff.mpr (List.mem_range.mpr hq)
  have hnd : (argsortAsc key n).Nodup := argsortAsc_nodup key n
  have hsorted := argsortAsc_sorted key n
  cases hL : argsortAsc key n with
  | nil => rw [hL] at hmem; cases hmem
  | cons a t =>
    rw [hL] at hmem hnd hsorted
    by_cases haq : a = q
    · subst haq
      exact ⟨t, rfl, (List.nodup_cons.mp hnd).1⟩
    · exfalso
      have hqt : q ∈ t := by
        rcases List.mem_cons.mp hmem with h | h
        · exact absurd h.symm haq
        · exact h
      have ha_mem : a ∈ List.range n := hperm.mem_iff.mp (by rw [hL]; simp)
      have ha_lt : a < n := List.mem_range.mp ha_mem
      have hrel : keyRel key a q :=
        (List.sorted_cons.mp hsorted).1 q hqt
      have hlt : key q < key a := hmin a ha_lt haq
      rcases hrel with h | ⟨h, _⟩
      · exact absurd hlt (not_lt.mpr h.le)
      · rw [h] at hlt; exact lt_irrefl _ hlt

theorem sortByKeyDesc_perm {α β : Type} [LinearOrder β] (key : α → β)
    (l : List α) : (sortByKeyDesc key l).Perm l :=
  @List.perm_insertionSort α _ (descDec key) l

theorem sortByKeyDesc_length {α β : Type} [LinearOrder β] (key : α → β)
    (l : List α) : (sortByKeyDesc key l).length = l.length :=
  (sortByKeyDesc_perm key l).length_eq

theorem sortByKeyDesc_mem {α β : Type} [LinearOrder β] (key : α → β)
    {a : α} {l : List α} : a ∈ sortByKeyDesc key l ↔ a ∈ l :=
  (sortByKeyDesc_perm key l).mem_iff

theorem sortByKeyDesc_sorted {α β : Type} [LinearOrder β] (key : α → β)
    (l : List α) :
    (sortByKeyDesc key l).Sorted (fun a b => key b ≤ key a) := by
  haveI : IsTotal α (fun a b => key b ≤ key a) :=
    ⟨fun a b => le_total (key b) (key a)⟩
  haveI : IsTrans α (fun a b => key b ≤ key a) :=
    ⟨fun a b c h1 h2 => le_trans h2 h1⟩
  exact @List.sorted_insertionSort α _ (descDec key) _ _ l

theorem dotR_self_nonneg (d : ℕ) (u : ℕ → ℝ) : 0 ≤ dotR d u u :=
  Finset.sum_nonneg fun i _ => mul_self_nonneg (u i)

/-- Cauchy–Schwarz for `dotR`. -/
theorem dotR_le_sqrt_mul_sqrt (d : ℕ) (u v : ℕ → ℝ) :
    dotR d u v ≤ Real.sqrt (dotR d u u) * Real.sqrt (dotR d v v) := by
  rcases le_or_lt (dotR d u v) 0 with h | h
  · exact h.trans (mul_nonneg (Real.sqrt_nonneg _) (Real.sqrt_nonneg _))
  · have hcs : (dotR d u v) ^ 2 ≤ (dotR d u u) * (dotR d v v) := by
      have := Finset.sum_mul_sq_le_sq_mul_sq (Finset.range d) u v
      simpa [dotR, pow_two, mul_comm, mul_left_comm, mul_assoc] using this
    have h1 : dotR d u v = Real.sqrt ((dotR d u v) ^ 2) := by
      rw [Real.sqrt_sq h.le]
    rw [h1, ← Real.sqrt_mul (dotR_self_nonneg d u)]
    exact Real.sqrt_le_sqrt hcs

theorem cosSim_self (d : ℕ) (u : ℕ → ℝ) (h : dotR d u u ≠ 0) :
    cosSim d u u = 1 := by
  rw [cosSim, if_neg (by tauto)]
  rw [Real.mul_self_sqrt (dotR_self_nonneg d u)]
  exact div_self h

theorem cosSim_le_one (d : ℕ) (u v : ℕ → ℝ) : cosSim d u v ≤ 1 := by
  rw [cosSim]
  split_ifs with hz
  · norm_num
  · push_neg at hz
    have hu : 0 < dotR d u u := lt_of_le_of_ne (dotR_self_nonneg d u) (Ne.symm hz.1)
    have hv : 0 < dotR d v v := lt_of_le_of_ne (dotR_self_nonneg d v) (Ne.symm hz.2)
    have hden : 0 < Real.sqrt (dotR d u u) * Real.sqrt (dotR d v v) :=
      mul_pos (Real.sqrt_pos.mpr hu) (Real.sqrt_pos.mpr hv)
    exact (div_le_one hden).mpr (dotR_le_sqrt_mul_sqrt d u v)

/-- Per-feature self-dominance of cosine similarity: the similarity of `u`
with any `v` never exceeds the similarity of `u` with itself. -/
theorem cosSim_le_cosSim_self (d : ℕ) (u v : ℕ → ℝ) :
    cosSim d u v ≤ cosSim d u u := by
  by_cases hu : dotR d u u = 0
  · rw [cosSim, if_pos (Or.inl hu), cosSim, if_pos (Or.inl hu)]
  · rw [cosSim_self d u hu]
    exact cosSim_le_one d u v

namespace CBFRS

theorem textWeight_nonneg (f : TextFeature) : 0 ≤ textWeight f := by
  cases f <;> norm_num [textWeight]

theorem numericWeight_nonneg (g : NumericFeature) : 0 ≤ numericWeight g := by
  cases g <;> norm_num [numericWeight]

end CBFRS

/-- Claim C4 (confirmed): for every fitted content-engine state and every
row index `i` of the movie table, the weighted content similarity vector
computed for `i` attains its maximum value at position `i`: no entry of the
vector exceeds the self-similarity entry, for all feature matrices the
declared text and numeric features can produce. -/
theorem CBFRS_C4_self_similarity_max (s : CBFRS.State) (i r : ℕ) :
    CBFRS.calculate_weighted_similarity s i r
      ≤ CBFRS.calculate_weighted_similarity s i i := by
  unfold CBFRS.calculate_weighted_similarity
  gcongr (?_ + ?_)
  · refine List.sum_le_sum fun f _ => ?_
    exact mul_le_mul_of_nonneg_right
      (cosSim_le_cosSim_self (s.textDim f) (s.textVec f i) (s.textVec f r))
      (CBFRS.textWeight_nonneg f)
  · refine List.sum_le_sum fun g _ => ?_
    refine mul_le_mul_of_nonneg_right ?_ (CBFRS.numericWeight_nonneg g)
    have h1 : (0 : ℝ) ≤ |s.numVec g r - s.numVec g i| := abs_nonneg _
    have h2 : |s.numVec g i - s.numVec g i| = 0 := by simp
    rw [h2]
    linarith

/-- Claim C8, amended part (the general law): the content engine's result
list always has length `min n (num_movies - 1)`, whatever the thresholds:
rows failing the `min_rating` / `min_votes` filter are zeroed, not removed,
so the slice `[1 : n+1]` of the descending argsort never shrinks below that
bound even when fewer rows pass the filter. -/
theorem CBFRS_C8_result_length (s : CBFRS.State) (movieIdx n : ℕ)
    (minRating minVotes : Option ℝ) :
    (CBFRS.get_movie_recommendations s movieIdx n minRating minVotes).length
      = min n (s.num - 1) := by
  unfold CBFRS.get_movie_recommendations
  rw [sortByKeyDesc_length, List.length_map, List.length_take,
    List.length_drop, List.length_reverse, argsortAsc_length]

namespace CBFRS

theorem dotR_eVec_00 : dotR 3 (eVec 0) (eVec 0) = 1 := by
  norm_num [dotR, eVec, Finset.sum_range_succ]

theorem dotR_eVec_11 : dotR 3 (eVec 1) (eVec 1) = 1 := by
  norm_num [dotR, eVec, Finset.sum_range_succ]

theorem dotR_eVec_22 : dotR 3 (eVec 2) (eVec 2) = 1 := by
  norm_num [dotR, eVec, Finset.sum_range_succ]

theorem dotR_eVec_01 : dotR 3 (eVec 0) (eVec 1) = 0 := by
  norm_num [dotR, eVec, Finset.sum_range_succ]

theorem dotR_eVec_02 : dotR 3 (eVec 0) (eVec 2) = 0 := by
  norm_num [dotR, eVec, Finset.sum_range_succ]

theorem cosSim_eVec_00 : cosSim 3 (eVec 0) (eVec 0) = 1 := by
  rw [cosSim, if_neg (by rw [dotR_eVec_00]; norm_num), dotR_eVec_00]
  norm_num [Real.sqrt_one]

theorem cosSim_eVec_01 : cosSim 3 (eVec 0) (eVec 1) = 0 := by
  rw [cosSim, if_neg (by rw [dotR_eVec_00, dotR_eVec_11]; norm_num),
    dotR_eVec_01]
  norm_num

theorem cosSim_eVec_02 : cosSim 3 (eVec 0) (eVec 2) = 0 := by
  rw [cosSim, if_neg (by rw [dotR_eVec_00, dotR_eVec_22]; norm_num),
    dotR_eVec_02]
  norm_num

theorem CB3_calc_00 : calculate_weighted_similarity CB3 0 0 = 1 := by
  norm_num [calculate_weighted_similarity, textFeatures, numericFeatures,
    CB3, cosSim_eVec_00, textWeight, numericWeight]

theorem CB3_calc_01 : calculate_weighted_similarity CB3 0 1 = 1 / 5 := by
  norm_num [calculate_weighted_similarity, textFeatures, numericFeatures,
    CB3, cosSim_eVec_01, textWeight, numericWeight]

theorem CB3_calc_02 : calculate_weighted_similarity CB3 0 2 = 1 / 5 := by
  norm_num [calculate_weighted_similarity, textFeatures, numericFeatures,
    CB3, cosSim_eVec_02, textWeight, numericWeight]

theorem CB3_F2_0 : F2 0 = 0 := by
  rw [F2, CB3_calc_00, maskVal]
  norm_num [CB3]

theorem CB3_F2_1 : F2 1 = 1 / 5 := by
  rw [F2, CB3_calc_01, maskVal]
  norm_num [CB3]

theorem CB3_F2_2 : F2 2 = 1 / 5 := by
  rw [F2, CB3_calc_02, maskVal]
  norm_num [CB3]

theorem CB3_argsort_F2 : argsortAsc F2 3 = [0, 1, 2] := by
  have h12 : keyRel F2 1 2 := by
    right
    rw [CB3_F2_1, CB3_F2_2]
    norm_num
  have h01 : keyRel F2 0 1 := by
    left
    rw [CB3_F2_0, CB3_F2_1]
    norm_num
  rw [argsortAsc, show List.range 3 = [0, 1, 2] by decide]
  simp only [List.insertionSort]
  rw [List.orderedInsert_nil,
    @List.orderedInsert_of_le ℕ (keyRel F2) (keyRelDec F2) 1 2 [] h12,
    @List.orderedInsert_of_le ℕ (keyRel F2) (keyRelDec F2) 0 1 [2] h01]

theorem CB3_recs_C2 :
    get_movie_recommendations CB3 0 5 (some 7) none
      = [(1, 1 / 5), (0, 0)] := by
  show sortByKeyDesc (fun p : ℕ × ℝ => p.2)
      (((((argsortAsc F2 3).reverse).drop 1).take 5).map (fun r => (r, F2 r)))
    = [(1, 1 / 5), (0, 0)]
  rw [CB3_argsort_F2]
  show sortByKeyDesc (fun p : ℕ × ℝ => p.2) [(1, F2 1), (0, F2 0)]
    = [(1, 1 / 5), (0, 0)]
  rw [CB3_F2_1, CB3_F2_0]
  have hle : (fun a b : ℕ × ℝ => b.2 ≤ a.2) (1, 1 / 5) (0, 0) := by
    norm_num
  simp only [sortByKeyDesc, List.insertionSort]
  rw [List.orderedInsert_nil,
    @List.orderedInsert_of_le (ℕ × ℝ) _ (descDec fun p : ℕ × ℝ => p.2)
      (1, 1 / 5) (0, 0) [] hle]

theorem CB3_F8_0 : F8 0 = 0 := by
  rw [F8, CB3_calc_00, maskVal]
  norm_num [CB3]

theorem CB3_F8_1 : F8 1 = 1 / 5 := by
  rw [F8, CB3_calc_01, maskVal]
  norm_num [CB3]

theorem CB3_F8_2 : F8 2 = 0 := by
  rw [F8, CB3_calc_02, maskVal]
  norm_num [CB3]

theorem CB3_argsort_F8 : argsortAsc F8 3 = [0, 2, 1] := by
  have h12 : ¬ keyRel F8 1 2 := by
    rw [keyRel, CB3_F8_1, CB3_F8_2]
    norm_num
  have h02 : keyRel F8 0 2 := by
    right
    rw [CB3_F8_0, CB3_F8_2]
    norm_num
  rw [argsortAsc, show List.range 3 = [0, 1, 2] by decide]
  simp only [List.insertionSort]
  rw [List.orderedInsert_nil]
  simp only [List.orderedInsert]
  rw [if_neg h12,
    @List.orderedInsert_of_le ℕ (keyRel F8) (keyRelDec F8) 0 2 [1] h02]

theorem CB3_recs_C8 :
    get_movie_recommendations CB3 0 2 none (some 20)
      = [(2, 0), (0, 0)] := by
  show sortByKeyDesc (fun p : ℕ × ℝ => p.2)
      (((((argsortAsc F8 3).reverse).drop 1).take 2).map (fun r => (r, F8 r)))
    = [(2, 0), (0, 0)]
  rw [CB3_argsort_F8]
  show sortByKeyDesc (fun p : ℕ × ℝ => p.2) [(2, F8 2), (0, F8 0)]
    = [(2, 0), (0, 0)]
  rw [CB3_F8_2, CB3_F8_0]
  have hle : (fun a b : ℕ × ℝ => b.2 ≤ a.2) (2, 0) (0, 0) := le_refl 0
  simp only [sortByKeyDesc, List.insertionSort]
  rw [List.orderedInsert_nil,
    @List.orderedInsert_of_le (ℕ × ℝ) _ (descDec fun p : ℕ × ℝ => p.2)
      (2, 0) (0, 0) [] hle]

end CBFRS

/-- Claim C2 (code bug, evaluation at the failing input): on a three-movie
table where the query row `0` has `vote_average = 5`, a
`get_movie_recommendations` call with `min_rating = 7` returns the query
movie itself (row `0`, with zeroed score) among the recommendations — the
code only drops position 0 of the descending argsort, and a query row that
fails the threshold filter is zeroed rather than top-ranked, so it is not
the entry dropped.  The spec requires the query row to be excluded from the
candidates in every case. -/
theorem CBFRS_C2_query_in_output :
    (0 : ℕ) ∈ (CBFRS.get_movie_recommendations CBFRS.CB3 0 5
      (some 7) none).map Prod.fst := by
  rw [CBFRS.CB3_recs_C2]
  simp

/-- Claim C8 (refuted as stated): on the three-movie state `CB3` with
`min_votes = 20`, exactly one row (row 1, 50 votes) passes the threshold,
which is fewer than the `n = 2` requested — yet the result list is NOT
shorter than requested: it still has 2 entries, because filtered rows are
zeroed rather than removed and zero-score rows fill the top-N window. -/
theorem CBFRS_C8_not_shorter_counterexample :
    ((20 : ℝ) ≤ CBFRS.CB3.voteCount 1)
    ∧ ¬ ((20 : ℝ) ≤ CBFRS.CB3.voteCount 0)
    ∧ ¬ ((20 : ℝ) ≤ CBFRS.CB3.voteCount 2)
    ∧ ¬ ((CBFRS.get_movie_recommendations CBFRS.CB3 0 2
          none (some 20)).length < 2) := by
  refine ⟨by norm_num [CBFRS.CB3], by norm_num [CBFRS.CB3],
    by norm_num [CBFRS.CB3], ?_⟩
  rw [CBFRS.CB3_recs_C8]
  norm_num

namespace CFRS

theorem unique_movies_nodup (rs : List Rating) (minRatings : ℕ) :
    (unique_movies rs minRatings).Nodup :=
  nodup_sortAsc ((nodup_uniqueFirst _).filter _)

theorem mem_unique_movies_mem_all {rs : List Rating} {minRatings : ℕ}
    {m : String} (h : m ∈ unique_movies rs minRatings) :
    m ∈ all_movie_ids rs := by
  rw [unique_movies, mem_sortAsc, popular, List.mem_filter] at h
  exact h.1

theorem str_le_12 : ("1" : String) ≤ "2" := by
  rw [String.le_iff_toList_le]; decide

theorem str_le_23 : ("2" : String) ≤ "3" := by
  rw [String.le_iff_toList_le]; decide

theorem str_le_13 : ("1" : String) ≤ "3" := by
  rw [String.le_iff_toList_le]; decide

theorem rs2_unique_movies : unique_movies rs2 1 = ["1", "2"] := by
  rw [unique_movies, show popular rs2 1 = ["1", "2"] from by decide, sortAsc]
  simp only [List.insertionSort]
  rw [List.orderedInsert_nil,
    @List.orderedInsert_of_le String _ ascDec "1" "2" [] str_le_12]

theorem rs3_unique_movies : unique_movies rs3 1 = ["1", "2", "3"] := by
  rw [unique_movies, show popular rs3 1 = ["1", "2", "3"] from by decide,
    sortAsc]
  simp only [List.insertionSort]
  rw [List.orderedInsert_nil,
    @List.orderedInsert_of_le String _ ascDec "2" "3" [] str_le_23,
    @List.orderedInsert_of_le String _ ascDec "1" "2" ["3"] str_le_12]

theorem rsD_unique_movies : unique_movies rsD 1 = ["1", "2"] := by
  rw [unique_movies, show popular rsD 1 = ["1", "2"] from by decide, sortAsc]
  simp only [List.insertionSort]
  rw [List.orderedInsert_nil,
    @List.orderedInsert_of_le String _ ascDec "1" "2" [] str_le_12]

end CFRS

/-- Core law of the CFRS neighbour query (shared helper): with no rating
filter, when the query row is the unique distance minimiser, the call
returns `min nRec (min k (N-1))` entries, none of which is the query. -/
theorem CFRS.neighbor_query_spec (rs : List CFRS.Rating)
    (nNeighbors minRatings nRec : ℕ) (movieId : String)
    (hmem : CFRS.standardize_movie_id rs movieId ∈ CFRS.unique_movies rs minRatings)
    (hself : cosDist (CFRS.numCols rs minRatings)
      (CFRS.matrixRow rs minRatings
        (CFRS.movieRowIdx rs minRatings (CFRS.standardize_movie_id rs movieId)))
      (CFRS.matrixRow rs minRatings
        (CFRS.movieRowIdx rs minRatings (CFRS.standardize_movie_id rs movieId))) = 0)
    (hothers : ∀ j < CFRS.numRows rs minRatings,
      j ≠ CFRS.movieRowIdx rs minRatings (CFRS.standardize_movie_id rs movieId) →
      0 < cosDist (CFRS.numCols rs minRatings) (CFRS.matrixRow rs minRatings j)
        (CFRS.matrixRow rs minRatings
          (CFRS.movieRowIdx rs minRatings (CFRS.standardize_movie_id rs movieId)))) :
    (CFRS.get_movie_recommendations rs nNeighbors minRatings movieId nRec none).length
      = min nRec (min nNeighbors (CFRS.numRows rs minRatings - 1))
    ∧ ∀ p ∈ CFRS.get_movie_recommendations rs nNeighbors minRatings movieId nRec none,
      p.1 ≠ CFRS.standardize_movie_id rs movieId := by
  set mid := CFRS.standardize_movie_id rs movieId with hmidDef
  set uniq := CFRS.unique_movies rs minRatings with huniqDef
  set R := CFRS.numRows rs minRatings with hRDef
  set q := CFRS.movieRowIdx rs minRatings mid with hqDef
  set key : ℕ → ℝ := fun i => cosDist (CFRS.numCols rs minRatings)
    (CFRS.matrixRow rs minRatings i) (CFRS.matrixRow rs minRatings q) with hkeyDef
  have hall : mid ∈ CFRS.all_movie_ids rs := CFRS.mem_unique_movies_mem_all hmem
  have hqR : q < R := by
    rw [hqDef, hRDef, CFRS.movieRowIdx, CFRS.numRows]
    exact List.indexOf_lt_length.mpr hmem
  have hRpos : 0 < R := lt_of_le_of_lt (Nat.zero_le q) hqR
  have hmin : ∀ j < R, j ≠ q → key q < key j := by
    intro j hj hne
    have : key q = 0 := hself
    rw [this]
    exact hothers j hj hne
  obtain ⟨t, hsort, hqt⟩ := argsortAsc_head_of_strict_min key R q hqR hmin
  have htlen : t.length = R - 1 := by
    have := argsortAsc_length key R
    rw [hsort] at this
    simp at this
    omega
  obtain ⟨m', hm'⟩ : ∃ m', min (nNeighbors + 1) R = m' + 1 :=
    ⟨min (nNeighbors + 1) R - 1, by omega⟩
  have hm'val : m' = min nNeighbors (R - 1) := by omega
  set f : ℕ → String × ℝ × ℚ × ℕ := fun i =>
    ((uniq.getD i "", 1 - key i, CFRS.movieMean rs (uniq.getD i ""),
      CFRS.movieCount rs (uniq.getD i ""))) with hfDef
  have hmain : CFRS.get_movie_recommendations rs nNeighbors minRatings movieId nRec none
      = (sortByKeyDesc (fun x : String × ℝ × ℚ × ℕ => x.2.1)
          ((t.take m').map f)).take nRec := by
    rw [CFRS.get_movie_recommendations]
    simp only []
    rw [if_neg (not_not_intro hall), if_neg (not_not_intro hmem)]
    rw [kneighbors]
    rw [← hRDef, ← hqDef, ← hkeyDef, hsort, hm', List.take_succ_cons,
      List.map_cons, List.drop_succ_cons, List.drop_zero]
    congr 1
    rw [List.filterMap_map]
    have hcomp : ((fun p : ℕ × ℝ =>
        (some ((uniq.getD p.1 "", 1 - p.2, CFRS.movieMean rs (uniq.getD p.1 ""),
          CFRS.movieCount rs (uniq.getD p.1 ""))) :
            Option (String × ℝ × ℚ × ℕ))) ∘ (fun i => (i, key i)))
        = some ∘ f := rfl
    rw [hcomp, List.filterMap_eq_map]
  constructor
  · rw [hmain, List.length_take, sortByKeyDesc_length, List.length_map,
      List.length_take, htlen]
    omega
  · intro p hp
    rw [hmain] at hp
    have hp1 : p ∈ sortByKeyDesc (fun x : String × ℝ × ℚ × ℕ => x.2.1)
        ((t.take m').map f) := List.take_subset _ _ hp
    rw [sortByKeyDesc_mem] at hp1
    obtain ⟨i, hi, hip⟩ := List.mem_map.mp hp1
    have hit : i ∈ t := List.take_subset _ _ hi
    have hine : i ≠ q := fun h => hqt (h ▸ hit)
    have hiR : i < R := by
      have : i ∈ argsortAsc key R := by
        rw [hsort]
        exact List.mem_cons_of_mem _ hit
      have := (argsortAsc_perm key R).mem_iff.mp this
      exact List.mem_range.mp this
    have hlen : uniq.length = R := by rw [hRDef, CFRS.numRows, huniqDef]
    have hiU : i < uniq.length := hlen ▸ hiR
    have hqU : q < uniq.length := hlen ▸ hqR
    intro hcontra
    have hp1eq : p.1 = uniq.getD i "" := by rw [← hip]
    have hgetq : uniq.get ⟨q, hqU⟩ = mid := List.indexOf_get hqU
    have : uniq.get ⟨i, hiU⟩ = uniq.get ⟨q, hqU⟩ := by
      rw [hgetq, ← hcontra, hp1eq, List.getD_eq_get uniq "" hiU]
    have := (List.Nodup.get_inj_iff (huniqDef ▸ CFRS.unique_movies_nodup rs minRatings)).mp this
    exact hine (congrArg Fin.val this)

/-- Claim C7, amended (the behaviour the code actually has): with no rating
filter, when the query's matrix row is at distance 0 from itself and at
strictly positive cosine distance from every other row (no duplicate or
parallel row), `get_movie_recommendations` returns
`min n_recommendations (min k (N - 1))` entries — the neighbour list of
length `min k (N-1)` additionally truncated to the requested
`n_recommendations` — and the query movie itself never appears among
them. -/
theorem CFRS_C7_neighbor_query (rs : List CFRS.Rating)
    (nNeighbors minRatings nRec : ℕ) (movieId : String)
    (hmem : CFRS.standardize_movie_id rs movieId ∈ CFRS.unique_movies rs minRatings)
    (hself : cosDist (CFRS.numCols rs minRatings)
      (CFRS.matrixRow rs minRatings
        (CFRS.movieRowIdx rs minRatings (CFRS.standardize_movie_id rs movieId)))
      (CFRS.matrixRow rs minRatings
        (CFRS.movieRowIdx rs minRatings (CFRS.standardize_movie_id rs movieId))) = 0)
    (hothers : ∀ j < CFRS.numRows rs minRatings,
      j ≠ CFRS.movieRowIdx rs minRatings (CFRS.standardize_movie_id rs movieId) →
      0 < cosDist (CFRS.numCols rs minRatings) (CFRS.matrixRow rs minRatings j)
        (CFRS.matrixRow rs minRatings
          (CFRS.movieRowIdx rs minRatings (CFRS.standardize_movie_id rs movieId)))) :
    (CFRS.get_movie_recommendations rs nNeighbors minRatings movieId nRec none).length
      = min nRec (min nNeighbors (CFRS.numRows rs minRatings - 1))
    ∧ ∀ p ∈ CFRS.get_movie_recommendations rs nNeighbors minRatings movieId nRec none,
      p.1 ≠ CFRS.standardize_movie_id rs movieId :=
  CFRS.neighbor_query_spec rs nNeighbors minRatings nRec movieId hmem hself hothers

namespace CFRS

theorem rs2_std : standardize_movie_id rs2 "1" = "1" := by decide

theorem rs2_users : unique_users rs2 1 = [1, 2] := by decide

theorem rs2_filtered : ratings_filtered rs2 1 = rs2 := by decide

theorem rs2_numRows : numRows rs2 1 = 2 := by
  rw [numRows, rs2_unique_movies]
  rfl

theorem rs2_numCols : numCols rs2 1 = 2 := by
  rw [numCols, rs2_users]
  rfl

theorem rs2_q : movieRowIdx rs2 1 "1" = 0 := by
  rw [movieRowIdx, rs2_unique_movies]
  decide

theorem rs2_E00 : matrixEntry rs2 1 0 0 = 1 := by
  rw [matrixEntry, rs2_filtered]
  simp only [movieRowIdx, userColIdx, rs2_unique_movies, rs2_users]
  simp +decide [rs2]

theorem rs2_E01 : matrixEntry rs2 1 0 1 = 0 := by
  rw [matrixEntry, rs2_filtered]
  simp only [movieRowIdx, userColIdx, rs2_unique_movies, rs2_users]
  simp +decide [rs2]

theorem rs2_E10 : matrixEntry rs2 1 1 0 = 0 := by
  rw [matrixEntry, rs2_filtered]
  simp only [movieRowIdx, userColIdx, rs2_unique_movies, rs2_users]
  simp +decide [rs2]

theorem rs2_E11 : matrixEntry rs2 1 1 1 = 1 := by
  rw [matrixEntry, rs2_filtered]
  simp only [movieRowIdx, userColIdx, rs2_unique_movies, rs2_users]
  simp +decide [rs2]

theorem rs2_dot00 : dotR 2 (matrixRow rs2 1 0) (matrixRow rs2 1 0) = 1 := by
  rw [dotR]
  simp only [Finset.sum_range_succ, Finset.sum_range_zero, matrixRow,
    rs2_E00, rs2_E01]
  norm_num

theorem rs2_dot11 : dotR 2 (matrixRow rs2 1 1) (matrixRow rs2 1 1) = 1 := by
  rw [dotR]
  simp only [Finset.sum_range_succ, Finset.sum_range_zero, matrixRow,
    rs2_E10, rs2_E11]
  norm_num

theorem rs2_dot10 : dotR 2 (matrixRow rs2 1 1) (matrixRow rs2 1 0) = 0 := by
  rw [dotR]
  simp only [Finset.sum_range_succ, Finset.sum_range_zero, matrixRow,
    rs2_E00, rs2_E01, rs2_E10, rs2_E11]
  norm_num

theorem rs2_dist00 : cosDist 2 (matrixRow rs2 1 0) (matrixRow rs2 1 0) = 0 := by
  rw [cosDist, cosSim, if_neg (by rw [rs2_dot00]; norm_num), rs2_dot00]
  norm_num [Real.sqrt_one]

theorem rs2_dist10 : cosDist 2 (matrixRow rs2 1 1) (matrixRow rs2 1 0) = 1 := by
  rw [cosDist, cosSim, if_neg (by rw [rs2_dot11, rs2_dot00]; norm_num),
    rs2_dot10]
  norm_num

theorem rs3_std : standardize_movie_id rs3 "1" = "1" := by decide

theorem rs3_users : unique_users rs3 1 = [1, 2, 3] := by decide

theorem rs3_filtered : ratings_filtered rs3 1 = rs3 := by decide

theorem rs3_numRows : numRows rs3 1 = 3 := by
  rw [numRows, rs3_unique_movies]
  rfl

theorem rs3_numCols : numCols rs3 1 = 3 := by
  rw [numCols, rs3_users]
  rfl

theorem rs3_q : movieRowIdx rs3 1 "1" = 0 := by
  rw [movieRowIdx, rs3_unique_movies]
  decide

theorem rs3_E00 : matrixEntry rs3 1 0 0 = 1 := by
  rw [matrixEntry, rs3_filtered]
  simp only [movieRowIdx, userColIdx, rs3_unique_movies, rs3_users]
  simp +decide [rs3]

theorem rs3_E01 : matrixEntry rs3 1 0 1 = 0 := by
  rw [matrixEntry, rs3_filtered]
  simp only [movieRowIdx, userColIdx, rs3_unique_movies, rs3_users]
  simp +decide [rs3]

theorem rs3_E02 : matrixEntry rs3 1 0 2 = 0 := by
  rw [matrixEntry, rs3_filtered]
  simp only [movieRowIdx, userColIdx, rs3_unique_movies, rs3_users]
  simp +decide [rs3]

theorem rs3_E10 : matrixEntry rs3 1 1 0 = 0 := by
  rw [matrixEntry, rs3_filtered]
  simp only [movieRowIdx, userColIdx, rs3_unique_movies, rs3_users]
  simp +decide [rs3]

theorem rs3_E11 : matrixEntry rs3 1 1 1 = 1 := by
  rw [matrixEntry, rs3_filtered]
  simp only [movieRowIdx, userColIdx, rs3_unique_movies, rs3_users]
  simp +decide [rs3]

theorem rs3_E12 : matrixEntry rs3 1 1 2 = 0 := by
  rw [matrixEntry, rs3_filtered]
  simp only [movieRowIdx, userColIdx, rs3_unique_movies, rs3_users]
  simp +decide [rs3]

theorem rs3_E20 : matrixEntry rs3 1 2 0 = 0 := by
  rw [matrixEntry, rs3_filtered]
  simp only [movieRowIdx, userColIdx, rs3_unique_movies, rs3_users]
  simp +decide [rs3]

theorem rs3_E21 : matrixEntry rs3 1 2 1 = 0 := by
  rw [matrixEntry, rs3_filtered]
  simp only [movieRowIdx, userColIdx, rs3_unique_movies, rs3_users]
  simp +decide [rs3]

theorem rs3_E22 : matrixEntry rs3 1 2 2 = 1 := by
  rw [matrixEntry, rs3_filtered]
  simp only [movieRowIdx, userColIdx, rs3_unique_movies, rs3_users]
  simp +decide [rs3]

theorem rs3_dot00 : dotR 3 (matrixRow rs3 1 0) (matrixRow rs3 1 0) = 1 := by
  rw [dotR]
  simp only [Finset.sum_range_succ, Finset.sum_range_zero, matrixRow,
    rs3_E00, rs3_E01, rs3_E02]
  norm_num

theorem rs3_dot11 : dotR 3 (matrixRow rs3 1 1) (matrixRow rs3 1 1) = 1 := by
  rw [dotR]
  simp only [Finset.sum_range_succ, Finset.sum_range_zero, matrixRow,
    rs3_E10, rs3_E11, rs3_E12]
  norm_num

theorem rs3_dot22 : dotR 3 (matrixRow rs3 1 2) (matrixRow rs3 1 2) = 1 := by
  rw [dotR]
  simp only [Finset.sum_range_succ, Finset.sum_range_zero, matrixRow,
    rs3_E20, rs3_E21, rs3_E22]
  norm_num

theorem rs3_dot10 : dotR 3 (matrixRow rs3 1 1) (matrixRow rs3 1 0) = 0 := by
  rw [dotR]
  simp only [Finset.sum_range_succ, Finset.sum_range_zero, matrixRow,
    rs3_E00, rs3_E01, rs3_E02, rs3_E10, rs3_E11, rs3_E12]
  norm_num

theorem rs3_dot20 : dotR 3 (matrixRow rs3 1 2) (matrixRow rs3 1 0) = 0 := by
  rw [dotR]
  simp only [Finset.sum_range_succ, Finset.sum_range_zero, matrixRow,
    rs3_E00, rs3_E01, rs3_E02, rs3_E20, rs3_E21, rs3_E22]
  norm_num

theorem rs3_dist00 : cosDist 3 (matrixRow rs3 1 0) (matrixRow rs3 1 0) = 0 := by
  rw [cosDist, cosSim, if_neg (by rw [rs3_dot00]; norm_num), rs3_dot00]
  norm_num [Real.sqrt_one]

theorem rs3_dist10 : cosDist 3 (matrixRow rs3 1 1) (matrixRow rs3 1 0) = 1 := by
  rw [cosDist, cosSim, if_neg (by rw [rs3_dot11, rs3_dot00]; norm_num),
    rs3_dot10]
  norm_num

theorem rs3_dist20 : cosDist 3 (matrixRow rs3 1 2) (matrixRow rs3 1 0) = 1 := by
  rw [cosDist, cosSim, if_neg (by rw [rs3_dot22, rs3_dot00]; norm_num),
    rs3_dot20]
  norm_num

theorem rsD_std : standardize_movie_id rsD "2" = "2" := by decide

theorem rsD_users : unique_users rsD 1 = [1] := by decide

theorem rsD_filtered : ratings_filtered rsD 1 = rsD := by decide

theorem rsD_numRows : numRows rsD 1 = 2 := by
  rw [numRows, rsD_unique_movies]
  rfl

theorem rsD_numCols : numCols rsD 1 = 1 := by
  rw [numCols, rsD_users]
  rfl

theorem rsD_q : movieRowIdx rsD 1 "2" = 1 := by
  rw [movieRowIdx, rsD_unique_movies]
  decide

theorem rsD_E00 : matrixEntry rsD 1 0 0 = 1 := by
  rw [matrixEntry, rsD_filtered]
  simp only [movieRowIdx, userColIdx, rsD_unique_movies, rsD_users]
  simp +decide [rsD]

theorem rsD_E10 : matrixEntry rsD 1 1 0 = 1 := by
  rw [matrixEntry, rsD_filtered]
  simp only [movieRowIdx, userColIdx, rsD_unique_movies, rsD_users]
  simp +decide [rsD]

theorem rsD_dot00 : dotR 1 (matrixRow rsD 1 0) (matrixRow rsD 1 0) = 1 := by
  rw [dotR]
  simp only [Finset.sum_range_succ, Finset.sum_range_zero, matrixRow, rsD_E00]
  norm_num

theorem rsD_dot11 : dotR 1 (matrixRow rsD 1 1) (matrixRow rsD 1 1) = 1 := by
  rw [dotR]
  simp only [Finset.sum_range_succ, Finset.sum_range_zero, matrixRow, rsD_E10]
  norm_num

theorem rsD_dot01 : dotR 1 (matrixRow rsD 1 0) (matrixRow rsD 1 1) = 1 := by
  rw [dotR]
  simp only [Finset.sum_range_succ, Finset.sum_range_zero, matrixRow,
    rsD_E00, rsD_E10]
  norm_num

theorem rsD_key0 : cosDist 1 (matrixRow rsD 1 0) (matrixRow rsD 1 1) = 0 := by
  rw [cosDist, cosSim, if_neg (by rw [rsD_dot00, rsD_dot11]; norm_num),
    rsD_dot01, rsD_dot00, rsD_dot11]
  norm_num [Real.sqrt_one]

theorem rsD_key1 : cosDist 1 (matrixRow rsD 1 1) (matrixRow rsD 1 1) = 0 := by
  rw [cosDist, cosSim, if_neg (by rw [rsD_dot11]; norm_num), rsD_dot11]
  norm_num [Real.sqrt_one]

theorem rsD_argsort :
    argsortAsc (fun i => cosDist 1 (matrixRow rsD 1 i) (matrixRow rsD 1 1)) 2
      = [0, 1] := by
  have h01 : keyRel (fun i => cosDist 1 (matrixRow rsD 1 i) (matrixRow rsD 1 1))
      0 1 := by
    right
    refine ⟨?_, by norm_num⟩
    show cosDist 1 (matrixRow rsD 1 0) (matrixRow rsD 1 1)
      = cosDist 1 (matrixRow rsD 1 1) (matrixRow rsD 1 1)
    rw [rsD_key0, rsD_key1]
  rw [argsortAsc, show List.range 2 = [0, 1] by decide]
  simp only [List.insertionSort]
  rw [List.orderedInsert_nil,
    @List.orderedInsert_of_le ℕ _
      (keyRelDec fun i => cosDist 1 (matrixRow rsD 1 i) (matrixRow rsD 1 1))
      0 1 [] h01]

/-- Full evaluation of the CFRS neighbour query on the duplicate-row state:
querying movie "2" returns movie "2" itself, because its matrix row is
identical to movie "1"'s row, the tie at distance 0 ranks row 0 first, and
the code drops only position 0 of the neighbour list. -/
theorem rsD_recs :
    get_movie_recommendations rsD 5 1 "2" 1 none
      = [("2", 1, movieMean rsD "2", movieCount rsD "2")] := by
  have h1 : ¬ (standardize_movie_id rsD "2" ∉ all_movie_ids rsD) := by decide
  have h2 : ¬ (standardize_movie_id rsD "2" ∉ unique_movies rsD 1) := by
    rw [rsD_std, rsD_unique_movies]
    decide
  rw [get_movie_recommendations]
  simp only []
  rw [if_neg h1, if_neg h2]
  simp only [rsD_std, rsD_q, rsD_numRows, rsD_numCols, kneighbors]
  rw [show min (5 + 1) 2 = 2 from by norm_num, rsD_argsort]
  simp only [List.take_succ_cons, List.take_zero, List.map_cons, List.map_nil,
    List.drop_succ_cons, List.drop_zero, List.filterMap_cons, List.filterMap_nil,
    rsD_unique_movies, List.getD_cons_succ, List.getD_cons_zero, rsD_key1,
    sortByKeyDesc, List.insertionSort, List.orderedInsert_nil]
  norm_num

end CFRS

/-- Claim C7 (refuted as stated).  First: on the three-movie state `rs3`
(`N = 3` orthogonal rows) with `k = 5` and `n_recommendations = 1`, the
call returns 1 entry, not `min k (N-1) = 2` — the neighbour list is
additionally truncated to `n_recommendations`.  Second: on the
duplicate-row state `rsD`, querying movie "2" (whose matrix row equals
movie "1"'s row) returns movie "2" itself — dropping position 0 of the
neighbour list does not exclude the query row when another row ties with
it at distance 0. -/
theorem CFRS_C7_length_counterexample :
    (CFRS.get_movie_recommendations CFRS.rs3 5 1 "1" 1 none).length = 1
    ∧ (1 : ℕ) ≠ min 5 (CFRS.numRows CFRS.rs3 1 - 1)
    ∧ CFRS.standardize_movie_id CFRS.rsD "2" = "2"
    ∧ "2" ∈ (CFRS.get_movie_recommendations CFRS.rsD 5 1 "2" 1 none).map
        (fun p => p.1) := by
  refine ⟨?_, ?_, CFRS.rsD_std, ?_⟩
  · have hmem : CFRS.standardize_movie_id CFRS.rs3 "1"
        ∈ CFRS.unique_movies CFRS.rs3 1 := by
      rw [CFRS.rs3_std, CFRS.rs3_unique_movies]
      decide
    have hself : cosDist (CFRS.numCols CFRS.rs3 1)
        (CFRS.matrixRow CFRS.rs3 1
          (CFRS.movieRowIdx CFRS.rs3 1 (CFRS.standardize_movie_id CFRS.rs3 "1")))
        (CFRS.matrixRow CFRS.rs3 1
          (CFRS.movieRowIdx CFRS.rs3 1 (CFRS.standardize_movie_id CFRS.rs3 "1")))
        = 0 := by
      rw [CFRS.rs3_std, CFRS.rs3_q, CFRS.rs3_numCols]
      exact CFRS.rs3_dist00
    have hothers : ∀ j < CFRS.numRows CFRS.rs3 1,
        j ≠ CFRS.movieRowIdx CFRS.rs3 1 (CFRS.standardize_movie_id CFRS.rs3 "1") →
        0 < cosDist (CFRS.numCols CFRS.rs3 1) (CFRS.matrixRow CFRS.rs3 1 j)
          (CFRS.matrixRow CFRS.rs3 1
            (CFRS.movieRowIdx CFRS.rs3 1
              (CFRS.standardize_movie_id CFRS.rs3 "1"))) := by
      rw [CFRS.rs3_std, CFRS.rs3_q, CFRS.rs3_numCols, CFRS.rs3_numRows]
      intro j hj hne
      interval_cases j
      · exact absurd rfl hne
      · rw [CFRS.rs3_dist10]
        norm_num
      · rw [CFRS.rs3_dist20]
        norm_num
    have h := (CFRS.neighbor_query_spec CFRS.rs3 5 1 1 "1" hmem hself hothers).1
    rw [CFRS.rs3_numRows] at h
    simpa using h
  · rw [CFRS.rs3_numRows]
    norm_num
  · rw [CFRS.rsD_recs]
    simp

/-- Witness for the amended claim C7: on the two-movie state `rs2` with
orthogonal matrix rows, `k = 5` and `n_recommendations = 1`, the call for
movie "1" returns exactly `min 1 (min 5 (2-1)) = 1` recommendation. -/
theorem CFRS_C7_neighbor_query_witness :
    (CFRS.get_movie_recommendations CFRS.rs2 5 1 "1" 1 none).length = 1 := by
  have hmem : CFRS.standardize_movie_id CFRS.rs2 "1"
      ∈ CFRS.unique_movies CFRS.rs2 1 := by
    rw [CFRS.rs2_std, CFRS.rs2_unique_movies]
    decide
  have hself : cosDist (CFRS.numCols CFRS.rs2 1)
      (CFRS.matrixRow CFRS.rs2 1
        (CFRS.movieRowIdx CFRS.rs2 1 (CFRS.standardize_movie_id CFRS.rs2 "1")))
      (CFRS.matrixRow CFRS.rs2 1
        (CFRS.movieRowIdx CFRS.rs2 1 (CFRS.standardize_movie_id CFRS.rs2 "1")))
      = 0 := by
    rw [CFRS.rs2_std, CFRS.rs2_q, CFRS.rs2_numCols]
    exact CFRS.rs2_dist00
  have hothers : ∀ j < CFRS.numRows CFRS.rs2 1,
      j ≠ CFRS.movieRowIdx CFRS.rs2 1 (CFRS.standardize_movie_id CFRS.rs2 "1") →
      0 < cosDist (CFRS.numCols CFRS.rs2 1) (CFRS.matrixRow CFRS.rs2 1 j)
        (CFRS.matrixRow CFRS.rs2 1
          (CFRS.movieRowIdx CFRS.rs2 1
            (CFRS.standardize_movie_id CFRS.rs2 "1"))) := by
    rw [CFRS.rs2_std, CFRS.rs2_q, CFRS.rs2_numCols, CFRS.rs2_numRows]
    intro j hj hne
    interval_cases j
    · exact absurd rfl hne
    · rw [CFRS.rs2_dist10]
      norm_num
  have h := (CFRS_C7_neighbor_query CFRS.rs2 5 1 1 "1" hmem hself hothers).1
  rw [CFRS.rs2_numRows] at h
  simpa using h

namespace CFRSn

theorem rsX_filtered : filtered_ratings rsX 1 = rsX := by decide

theorem rsX_valid : valid_movies rsX 1 = [1, 2] := by decide

theorem rsX_appOrder : appOrder rsX 1 = [2, 1] := by decide

theorem rsX_numRows : numRows rsX 1 = 2 := by decide

theorem rsX_numCols : numCols rsX 1 = 2 := by decide

theorem rsX_idx2 : movie_to_idx rsX 1 2 = 0 := by decide

theorem rsX_row1 : rowOf rsX 1 1 = 0 := by decide

theorem rsX_row2 : rowOf rsX 1 2 = 1 := by decide

theorem rsX_E00 : matrixEntry rsX 1 0 0 = 0 := by
  rw [matrixEntry, rsX_filtered]
  simp +decide [rsX]

theorem rsX_E01 : matrixEntry rsX 1 0 1 = 1 := by
  rw [matrixEntry, rsX_filtered]
  simp +decide [rsX]

theorem rsX_E10 : matrixEntry rsX 1 1 0 = 1 := by
  rw [matrixEntry, rsX_filtered]
  simp +decide [rsX]

theorem rsX_E11 : matrixEntry rsX 1 1 1 = 0 := by
  rw [matrixEntry, rsX_filtered]
  simp +decide [rsX]

theorem rsX_dot00 : dotR 2 (matrixRow rsX 1 0) (matrixRow rsX 1 0) = 1 := by
  rw [dotR]
  simp only [Finset.sum_range_succ, Finset.sum_range_zero, matrixRow,
    rsX_E00, rsX_E01]
  norm_num

theorem rsX_dot11 : dotR 2 (matrixRow rsX 1 1) (matrixRow rsX 1 1) = 1 := by
  rw [dotR]
  simp only [Finset.sum_range_succ, Finset.sum_range_zero, matrixRow,
    rsX_E10, rsX_E11]
  norm_num

theorem rsX_dot10 : dotR 2 (matrixRow rsX 1 1) (matrixRow rsX 1 0) = 0 := by
  rw [dotR]
  simp only [Finset.sum_range_succ, Finset.sum_range_zero, matrixRow,
    rsX_E00, rsX_E01, rsX_E10, rsX_E11]
  norm_num

theorem rsX_dist00 : cosDist 2 (matrixRow rsX 1 0) (matrixRow rsX 1 0) = 0 := by
  rw [cosDist, cosSim, if_neg (by rw [rsX_dot00]; norm_num), rsX_dot00]
  norm_num [Real.sqrt_one]

theorem rsX_dist10 : cosDist 2 (matrixRow rsX 1 1) (matrixRow rsX 1 0) = 1 := by
  rw [cosDist, cosSim, if_neg (by rw [rsX_dot11, rsX_dot00]; norm_num),
    rsX_dot10]
  norm_num

theorem rsX_argsort :
    argsortAsc (fun i => cosDist 2 (matrixRow rsX 1 i) (matrixRow rsX 1 0)) 2
      = [0, 1] := by
  have h01 : keyRel (fun i => cosDist 2 (matrixRow rsX 1 i) (matrixRow rsX 1 0))
      0 1 := by
    left
    show cosDist 2 (matrixRow rsX 1 0) (matrixRow rsX 1 0)
      < cosDist 2 (matrixRow rsX 1 1) (matrixRow rsX 1 0)
    rw [rsX_dist00, rsX_dist10]
    norm_num
  rw [argsortAsc, show List.range 2 = [0, 1] by decide]
  simp only [List.insertionSort]
  rw [List.orderedInsert_nil,
    @List.orderedInsert_of_le ℕ _
      (keyRelDec fun i => cosDist 2 (matrixRow rsX 1 i) (matrixRow rsX 1 0))
      0 1 [] h01]

/-- Full evaluation of `recommend` at the failing input: querying movie 2
returns the single pair `((1, "A"), 1)` — movie 1 with a stored
"similarity" of 1. -/
theorem rsX_recommend :
    recommend moviesX rsX 1 1 2 = [((1, "A"), 1)] := by
  have h1 : ¬ ((2 : ℕ) ∉ appOrder rsX 1) := by decide
  rw [recommend]
  simp only []
  rw [if_neg h1]
  simp only [rsX_idx2, rsX_numRows, rsX_numCols, kneighbors, rsX_argsort]
  simp only [List.take_succ_cons, List.take_zero, List.map_cons, List.map_nil,
    List.drop_succ_cons, List.drop_zero, rsX_appOrder,
    List.getD_cons_succ, List.getD_cons_zero]
  rw [show (moviesX.filter (fun mv => mv.1 ∈ [(1 : ℕ)])) = [(1, "A")] from
    by decide]
  rw [List.zip_cons_cons, List.zip_nil_right, rsX_dist10]

theorem rsX_dot01 : dotR 2 (matrixRow rsX 1 0) (matrixRow rsX 1 1) = 0 := by
  rw [dotR]
  simp only [Finset.sum_range_succ, Finset.sum_range_zero, matrixRow,
    rsX_E00, rsX_E01, rsX_E10, rsX_E11]
  norm_num

theorem rsX_dist01 : cosDist 2 (matrixRow rsX 1 0) (matrixRow rsX 1 1) = 1 := by
  rw [cosDist, cosSim, if_neg (by rw [rsX_dot00, rsX_dot11]; norm_num),
    rsX_dot01]
  norm_num

end CFRSn

/-- Claim C1 (code bug, evaluation at the failing input): in
`CFMovieRecommender.preprocess` on ratings
`[(user 1, movie 2, 1), (user 2, movie 1, 1)]` with `min_ratings = 1`, the
item-to-row mapping `movie_to_idx` sends movie 2 to row 0 (first-appearance
order), although the ascending sorted order of the eligible ids `[1, 2]`
puts movie 2 at position 1 — and matrix row 0 (built from
`cat.codes`, i.e. sorted order) holds movie 1's ratings, not movie 2's:
the cell at (row 0, user 1's column 0) is 0 even though user 1 rated
movie 2 with 1.  `KNNMovieRecommender.prepare_data` (CFRS.py) sorts before
enumerating and is consistent; the claim fails on CFRS_n.py. -/
theorem CFRSn_C1_mapping_misaligned :
    CFRSn.movie_to_idx CFRSn.rsX 1 2 = 0
    ∧ (CFRSn.valid_movies CFRSn.rsX 1).indexOf 2 = 1
    ∧ CFRSn.rowOf CFRSn.rsX 1 2 = 1
    ∧ CFRSn.colOf CFRSn.rsX 1 1 = 0
    ∧ CFRSn.matrixEntry CFRSn.rsX 1 0 0 = 0
    ∧ ((CFRSn.rsX.filter (fun x => x.movie = 2 ∧ x.user = 1)).map
        (fun x => x.rating)).sum = 1 := by
  refine ⟨by decide, by decide, by decide, by decide, CFRSn.rsX_E00, ?_⟩
  simp +decide [CFRSn.rsX]

/-- Claim C3 (code bug, evaluation at the failing input): on the same
failing input, `recommend(movie 2)` returns the single pair
`(movie 1, 1.0)` in its `similarity` column, while
`1 − cosine_distance` between movie 1's actual matrix row and movie 2's
actual matrix row is `0`: the reported value is the raw cosine distance
(not `1 − distance`), and it was computed against the wrong query row,
because `movie_to_idx` (first-appearance order) disagrees with the
`cat.codes` row order of the matrix. -/
theorem CFRSn_C3_similarity_misreported :
    CFRSn.recommend CFRSn.moviesX CFRSn.rsX 1 1 2 = [((1, "A"), 1)]
    ∧ 1 - cosDist (CFRSn.numCols CFRSn.rsX 1)
        (CFRSn.matrixRow CFRSn.rsX 1 (CFRSn.rowOf CFRSn.rsX 1 1))
        (CFRSn.matrixRow CFRSn.rsX 1 (CFRSn.rowOf CFRSn.rsX 1 2)) = 0 := by
  refine ⟨CFRSn.rsX_recommend, ?_⟩
  rw [CFRSn.rsX_numCols, CFRSn.rsX_row1, CFRSn.rsX_row2, CFRSn.rsX_dist01]
  norm_num

/-- Claim C9 (confirmed): in both collaborative engines, a queried item id
that is absent from the trained rating matrix — unknown, or filtered out
for having too few ratings — yields an empty result from the scoring call
and no exception: the total Lean functions return `[]` on these paths.
For CFRS.py the check is on the standardized id (exact, then
zero-padded). -/
theorem C9_missing_item_empty :
    (∀ (rs : List CFRS.Rating) (nNeighbors minRatings : ℕ) (movieId : String)
      (nRec : ℕ) (minRating : Option ℚ),
      CFRS.standardize_movie_id rs movieId ∉ CFRS.unique_movies rs minRatings →
      CFRS.get_movie_recommendations rs nNeighbors minRatings movieId nRec
        minRating = [])
    ∧ (∀ (movies : List (ℕ × String)) (rs : List CFRSn.Rating)
      (minRatings nNeighbers movieId : ℕ),
      movieId ∉ CFRSn.appOrder rs minRatings →
      CFRSn.recommend movies rs minRatings nNeighbers movieId = []) := by
  constructor
  · intro rs k minR mid nRec mr h
    rw [CFRS.get_movie_recommendations]
    simp only []
    by_cases h1 : CFRS.standardize_movie_id rs mid ∉ CFRS.all_movie_ids rs
    · rw [if_pos h1]
    · rw [if_neg h1, if_pos h]
  · intro movies rs minR nk mid h
    rw [CFRSn.recommend]
    simp only []
    rw [if_pos h]

/-- Witness for claim C9: the unknown id "9" (CFRS) and the unknown id 9
(CFRS_n) both produce the empty result on concrete trained states. -/
theorem C9_missing_item_empty_witness :
    CFRS.get_movie_recommendations CFRS.rs2 5 1 "9" 1 none = []
    ∧ CFRSn.recommend CFRSn.moviesX CFRSn.rsX 1 1 9 = [] := by
  constructor
  · apply C9_missing_item_empty.1
    rw [CFRS.rs2_unique_movies]
    decide
  · exact C9_missing_item_empty.2 _ _ _ _ _ (by decide)

namespace Hybrid

theorem weightInvariant_init : weightInvariant initWeights := by
  refine ⟨?_, by norm_num [initWeights], by norm_num [initWeights]⟩
  norm_num [initWeights]

theorem weightInvariant_step (s : Weights) (w : ℚ)
    (h : weightInvariant s) : weightInvariant (adjust_weights w s).1 := by
  rw [adjust_weights]
  split_ifs with hw
  · exact ⟨by ring, hw.1, hw.2⟩
  · exact h

end Hybrid

/-- Claim C5 (confirmed): the hybrid combiner scores exactly the union of
the titles of the two input lists; every output record's combined score is
`content_weight * content_score + cf_weight * cf_score` with missing-side
scores defaulting to 0; the output is sorted descending by combined score;
and (when `n` is at least the union size, i.e. disregarding the final
top-`n` truncation) every union title appears in the output. -/
theorem Hybrid_C5_combine_spec (cw cfw : ℚ) (content cf : List (String × ℚ))
    (n : ℕ) :
    (∀ r ∈ Hybrid.get_recommendations_combine cw cfw content cf n,
      r.2.2.2 = cw * Hybrid.dictGet content r.1 + cfw * Hybrid.dictGet cf r.1
      ∧ (r.1 ∈ content.map Prod.fst ∨ r.1 ∈ cf.map Prod.fst))
    ∧ (∀ t, t ∈ Hybrid.unionTitles content cf
        ↔ (t ∈ content.map Prod.fst ∨ t ∈ cf.map Prod.fst))
    ∧ (Hybrid.get_recommendations_combine cw cfw content cf n).Chain'
        (fun a b => b.2.2.2 ≤ a.2.2.2)
    ∧ ((Hybrid.unionTitles content cf).length ≤ n →
        ∀ t ∈ Hybrid.unionTitles content cf,
          t ∈ (Hybrid.get_recommendations_combine cw cfw content cf n).map
            Prod.fst) := by
  have hunion : ∀ t, t ∈ Hybrid.unionTitles content cf
      ↔ (t ∈ content.map Prod.fst ∨ t ∈ cf.map Prod.fst) := by
    intro t
    rw [Hybrid.unionTitles, mem_uniqueFirst, List.mem_append]
  refine ⟨?_, hunion, ?_, ?_⟩
  · intro r hr
    rw [Hybrid.get_recommendations_combine] at hr
    simp only [List.mem_map] at hr
    obtain ⟨p, hp, hpr⟩ := hr
    have hp2 : p ∈ sortByKeyDesc (fun p : String × ℚ => p.2)
        ((Hybrid.unionTitles content cf).map
          (fun t => (t, cw * Hybrid.dictGet content t
            + cfw * Hybrid.dictGet cf t))) := List.take_subset _ _ hp
    rw [sortByKeyDesc_mem] at hp2
    obtain ⟨t, ht, hpt⟩ := List.mem_map.mp hp2
    constructor
    · rw [← hpr, ← hpt]
    · rw [← hpr, ← hpt]
      exact (hunion t).mp ht
  · rw [Hybrid.get_recommendations_combine]
    refine List.Pairwise.chain' ?_
    rw [List.pairwise_map]
    have hsorted := sortByKeyDesc_sorted (fun p : String × ℚ => p.2)
      ((Hybrid.unionTitles content cf).map
        (fun t => (t, cw * Hybrid.dictGet content t
          + cfw * Hybrid.dictGet cf t)))
    have htake := List.Pairwise.sublist (List.take_sublist n _) hsorted
    exact htake
  · intro hn t ht
    rw [Hybrid.get_recommendations_combine]
    rw [List.take_of_length_le (by rw [sortByKeyDesc_length, List.length_map]; exact hn)]
    rw [List.map_map]
    refine List.mem_map.mpr ?_
    refine ⟨(t, cw * Hybrid.dictGet content t + cfw * Hybrid.dictGet cf t), ?_, rfl⟩
    rw [sortByKeyDesc_mem]
    exact List.mem_map.mpr ⟨t, ht, rfl⟩

/-- Witness for claim C5: a concrete combination in which title "A" (in
both lists) and title "B" (cf-only) are scored and "A" appears in the
output. -/
theorem Hybrid_C5_combine_spec_witness :
    "A" ∈ (Hybrid.get_recommendations_combine (3 / 10) (7 / 10)
      [("A", 1 / 2)] [("B", 1 / 4), ("A", 1 / 10)] 5).map Prod.fst := by
  refine (Hybrid_C5_combine_spec (3 / 10) (7 / 10)
    [("A", 1 / 2)] [("B", 1 / 4), ("A", 1 / 10)] 5).2.2.2 ?_ "A" ?_
  · decide
  · decide

/-- Claim C6 (refuted as stated): at `content_weight = 2` the source's
`adjust_weights` returns normally — the state unchanged and only the
rejection message printed (`false`) — whereas the specified behaviour
(`adjust_weights_spec`, modelled from §4.7) fails with
`InvalidWeightError`.  No exception is raised by the code. -/
theorem Hybrid_C6_no_exception_counterexample :
    Hybrid.adjust_weights 2 Hybrid.initWeights = (Hybrid.initWeights, false)
    ∧ Hybrid.adjust_weights_spec 2 Hybrid.initWeights
      = Except.error Hybrid.InvalidWeightError.invalidWeight := by
  constructor
  · rw [Hybrid.adjust_weights, if_neg (by norm_num)]
  · rw [Hybrid.adjust_weights_spec, if_neg (by norm_num)]

/-- Claim C6, amended: for every `content_weight` outside `[0,1]`,
`adjust_weights` rejects the input by printing an error message and
leaving both weight fields unchanged — without raising — and for every
`content_weight` inside `[0,1]` it sets `content_weight = w` and
`cf_weight = 1 - w`.  The rejection happens before any weight mutation. -/
theorem Hybrid_C6_adjust_weights_behavior (w : ℚ) (s : Hybrid.Weights) :
    (¬ (0 ≤ w ∧ w ≤ 1) → Hybrid.adjust_weights w s = (s, false))
    ∧ ((0 ≤ w ∧ w ≤ 1) →
        Hybrid.adjust_weights w s = (⟨w, 1 - w⟩, true)) := by
  constructor
  · intro h
    rw [Hybrid.adjust_weights, if_neg h]
  · intro h
    rw [Hybrid.adjust_weights, if_pos h]

/-- Witness for the amended claim C6: rejection at `w = 2`, acceptance at
`w = 1/2`. -/
theorem Hybrid_C6_adjust_weights_behavior_witness :
    Hybrid.adjust_weights 2 Hybrid.initWeights = (Hybrid.initWeights, false)
    ∧ Hybrid.adjust_weights (1 / 2) Hybrid.initWeights
      = (⟨1 / 2, 1 - 1 / 2⟩, true) :=
  ⟨(Hybrid_C6_adjust_weights_behavior 2 Hybrid.initWeights).1 (by norm_num),
   (Hybrid_C6_adjust_weights_behavior (1 / 2) Hybrid.initWeights).2
     (by norm_num)⟩

/-- Claim C10 (confirmed): after any sequence of `adjust_weights` calls
starting from the constructor state `(0.3, 0.7)`, the invariant
`content_weight + cf_weight = 1` with `content_weight ∈ [0,1]` holds, and
any call with an out-of-range argument leaves both weight fields
unchanged. -/
theorem Hybrid_C10_weight_invariant :
    (∀ ws : List ℚ,
      Hybrid.weightInvariant
        (ws.foldl (fun s w => (Hybrid.adjust_weights w s).1) Hybrid.initWeights))
    ∧ ∀ (w : ℚ) (s : Hybrid.Weights), ¬ (0 ≤ w ∧ w ≤ 1) →
      (Hybrid.adjust_weights w s).1 = s := by
  constructor
  · have hgen : ∀ (ws : List ℚ) (s : Hybrid.Weights),
        Hybrid.weightInvariant s →
        Hybrid.weightInvariant
          (ws.foldl (fun s w => (Hybrid.adjust_weights w s).1) s) := by
      intro ws
      induction ws with
      | nil => intro s hs; exact hs
      | cons w ws ih =>
          intro s hs
          exact ih _ (Hybrid.weightInvariant_step s w hs)
    intro ws
    exact hgen ws Hybrid.initWeights Hybrid.weightInvariant_init
  · intro w s h
    rw [Hybrid.adjust_weights, if_neg h]

/-- Witness for claim C10: the call sequence `[2, 1/2]` (one rejected, one
accepted) ends in a state satisfying the invariant, and the rejected call
at `w = 3` leaves the constructor state unchanged. -/
theorem Hybrid_C10_weight_invariant_witness :
    Hybrid.weightInvariant
      ([2, 1 / 2].foldl (fun s w => (Hybrid.adjust_weights w s).1)
        Hybrid.initWeights)
    ∧ (Hybrid.adjust_weights 3 Hybrid.initWeights).1 = Hybrid.initWeights :=
  ⟨Hybrid_C10_weight_invariant.1 [2, 1 / 2],
   Hybrid_C10_weight_invariant.2 3 Hybrid.initWeights (by norm_num)⟩

end MovieRec
